import Mathlib

/-!
Verification of the transaction-stream consumer and the default processor
durable-write pipeline of the aptos-indexer-processors repository.

The Rust sources are shallowly embedded: machine integers become `Nat`/`Int`
with explicit wrap-around where overflow can occur (`u64` arithmetic is taken
modulo `2 ^ 64`; `as i64` casts reinterpret modulo `2 ^ 64` into the signed
range), stateful code becomes explicit state passing over the
`TransactionStream` record, and panics become `none` results.
-/

namespace AptosIndexer

/-! ## Machine integer helpers -/

/-- Modulus of the Rust `u64` type. -/
def U64_MOD : Nat := 2 ^ 64

/-- Reinterpretation of an integer as a Rust `i64`: reduce modulo `2 ^ 64`
into the interval from `-(2 ^ 63)` to `2 ^ 63 - 1`.  This models both
wrapping `i64` arithmetic (release-mode overflow semantics) and `as i64`
casts. -/
def i64Wrap (i : Int) : Int := (i + 2 ^ 63) % 2 ^ 64 - 2 ^ 63

/-- The Rust cast `u64 as i64`. -/
def i64OfU64 (n : Nat) : Int := i64Wrap n

/-- The Rust cast `i64 as u64`. -/
def u64OfI64 (i : Int) : Nat := (i % (2 ^ 64 : Int)).toNat

/-! ## Data model

`Transaction` abstracts the protobuf transaction: the claims only depend on
its `version` and `timestamp` fields; every other field is collapsed into an
opaque `payload` component so that the caller-supplied filter predicate can
still distinguish transactions with equal versions. -/

/-- Protobuf timestamp as used for the first/last transaction timestamps. -/
structure Timestamp where
  seconds : Int
  nanos : Int
deriving DecidableEq

structure Transaction where
  version : Nat
  timestamp : Option Timestamp
  payload : Nat
deriving DecidableEq

/-- A raw batch received from upstream (`TransactionsResponse`).
`encodedLen` models `r.encoded_len()`, the protobuf-encoded size of the
response, which the code computes but the embedding carries as data. -/
structure TransactionsResponse where
  transactions : List Transaction
  chain_id : Option Nat
  encodedLen : Nat
deriving DecidableEq

/-- The per-session configuration fields that the stream logic reads.
Addresses, tokens and timeouts only feed the transport layer and logging, so
they are omitted. -/
structure TransactionStreamConfig where
  starting_version : Nat
  request_ending_version : Option Nat
deriving DecidableEq

/-- The version-range fields of the upstream `GetTransactionsRequest`. -/
structure GetTransactionsRequest where
  starting_version : Option Nat
  transactions_count : Option Nat
deriving DecidableEq

/-- `RECONNECTION_MAX_RETRIES` from `transaction_stream.rs`. -/
def RECONNECTION_MAX_RETRIES : Nat := 5

/-- `grpc_request_builder`: build the version-range part of the request
(auth and request-name headers are transport metadata and are omitted). -/
def grpc_request_builder (starting_version : Nat) (transactions_count : Option Nat) :
    GetTransactionsRequest :=
  { starting_version := some starting_version, transactions_count := transactions_count }

/-- The request issued by `get_stream`: it always starts at
`transaction_stream_config.starting_version`, and derives the optional count
as `(ending as i64 - starting as i64 + 1) as u64`. -/
def getStreamRequest (c : TransactionStreamConfig) : GetTransactionsRequest :=
  grpc_request_builder c.starting_version
    (c.request_ending_version.map (fun v =>
      u64OfI64 (i64Wrap (i64OfU64 v - i64OfU64 c.starting_version + 1))))

/-- An output batch handed downstream (`TransactionsPBResponse`). -/
structure TransactionsPBResponse where
  transactions : List Transaction
  chain_id : Nat
  start_version : Nat
  end_version : Nat
  start_txn_timestamp : Option Timestamp
  end_txn_timestamp : Option Timestamp
  size_in_bytes : Nat
deriving DecidableEq

/-- The mutable state of `TransactionStream`.  The gRPC response stream and
connection id are owned by the environment (each call consumes one
`FetchEvent`), and the moving-average meter is observability-only, so neither
appears here. -/
structure TransactionStream where
  transaction_stream_config : TransactionStreamConfig
  transaction_filter : Transaction → Bool
  pb_channel_txn_chunk_size : Nat
  next_version_to_fetch : Nat
  reconnection_retries : Nat
  last_fetched_version : Int

structure TransactionStreamOutput where
  transactions : List TransactionsPBResponse
  should_continue_fetching : Bool

/-- `TransactionStream::new`: the cursor starts at the configured starting
version, with `last_fetched_version = starting_version as i64 - 1`. -/
def TransactionStream.new (c : TransactionStreamConfig)
    (transaction_filter : Transaction → Bool) (pb_channel_txn_chunk_size : Nat) :
    TransactionStream :=
  { transaction_stream_config := c
    transaction_filter := transaction_filter
    pb_channel_txn_chunk_size := pb_channel_txn_chunk_size
    next_version_to_fetch := c.starting_version
    reconnection_retries := 0
    last_fetched_version := i64Wrap (i64OfU64 c.starting_version - 1) }

/-! ## Chunking

`itertools::chunks` over an iterator: consecutive slices of at most `n`
elements.  `chunksAux` uses the list length as fuel; for `n = 0` the Rust
call panics, which the caller models separately. -/

def chunksAux (n : Nat) : Nat → List Transaction → List (List Transaction)
  | 0, _ => []
  | _ + 1, [] => []
  | fuel + 1, x :: xs => ((x :: xs).take n) :: chunksAux n fuel ((x :: xs).drop n)

def listChunks (n : Nat) (l : List Transaction) : List (List Transaction) :=
  chunksAux n l.length l

/-! ## The reconnection procedure

`reconnect_to_grpc` sleeps 100ms, panics when the retry counter has reached
`RECONNECTION_MAX_RETRIES`, and otherwise increments the counter and re-runs
`get_stream` on `self.transaction_stream_config.clone()`.  The observable
actions are recorded as a trace so the ordering (sleep, then check, then
connect) and the request actually issued are visible; the second component
is the resulting state, `none` when the procedure panics. -/

inductive ReconnectStep where
  | sleepMs (ms : Nat)
  | fatalAbort
  | connect (req : GetTransactionsRequest)
deriving DecidableEq

def TransactionStream.reconnect_to_grpc (s : TransactionStream) :
    List ReconnectStep × Option TransactionStream :=
  if RECONNECTION_MAX_RETRIES ≤ s.reconnection_retries then
    ([ReconnectStep.sleepMs 100, ReconnectStep.fatalAbort], none)
  else
    ([ReconnectStep.sleepMs 100,
      ReconnectStep.connect (getStreamRequest s.transaction_stream_config)],
     some { s with reconnection_retries := s.reconnection_retries + 1 })

/-- Iterated invocation of the reconnection procedure, to express bounds on
consecutive reconnections without an intervening successful batch. -/
def iterReconnect : Nat → TransactionStream → Option TransactionStream
  | 0, s => some s
  | k + 1, s =>
      match (s.reconnect_to_grpc).2 with
      | none => none
      | some s2 => iterReconnect k s2

/-! ## The batch-fetch operation

`get_next_transaction_batch` awaits the next item of the response stream.
The environment outcome of that await is a `FetchEvent`: a received response
(`Some(Ok(r))`), a mid-stream RPC error (`Some(Err(_))`), the end of the
stream (`None`), or an item timeout.  The result is `none` when the code
panics. -/

inductive FetchEvent where
  | response (r : TransactionsResponse)
  | rpcError
  | streamEnd
  | itemTimeout
deriving DecidableEq

/-- The `Some(Ok(r))` arm of `get_next_transaction_batch`: reset the retry
counter, read first/last version and timestamps (panicking on an empty
batch), advance `next_version_to_fetch`, read the chain id (panicking when
absent), filter, check contiguity against `last_fetched_version` (panicking
on a gap), advance `last_fetched_version`, and emit either a single output
batch or per-chunk output batches.  Metrics and log statements have no
state effect and are omitted. -/
def TransactionStream.process_response (s : TransactionStream)
    (r : TransactionsResponse) : Option (TransactionStream × List TransactionsPBResponse) :=
  match r.transactions.head?, r.transactions.getLast? with
  | some firstTxn, some lastTxn =>
      let s1 := { s with reconnection_retries := 0 }
      let start_version := firstTxn.version
      let start_txn_timestamp := firstTxn.timestamp
      let end_version := lastTxn.version
      let end_txn_timestamp := lastTxn.timestamp
      let s2 := { s1 with next_version_to_fetch := (end_version + 1) % U64_MOD }
      let size_in_bytes := r.encodedLen
      match r.chain_id with
      | none => none
      | some chain_id =>
          let num_txns := r.transactions.length
          let filtered := r.transactions.filter s.transaction_filter
          let num_txn_post_filter := filtered.length
          if i64Wrap (s.last_fetched_version + 1) ≠ i64OfU64 start_version then
            none
          else
            let s3 := { s2 with last_fetched_version := i64OfU64 end_version }
            if num_txn_post_filter < s.pb_channel_txn_chunk_size then
              some (s3,
                [{ transactions := filtered
                   chain_id := chain_id
                   start_version := start_version
                   end_version := end_version
                   start_txn_timestamp := start_txn_timestamp
                   end_txn_timestamp := end_txn_timestamp
                   size_in_bytes := size_in_bytes }])
            else if s.pb_channel_txn_chunk_size = 0 then
              none
            else
              let average_size_in_bytes := size_in_bytes / num_txns
              some (s3,
                (listChunks s.pb_channel_txn_chunk_size filtered).map (fun txns =>
                  { transactions := txns
                    chain_id := chain_id
                    start_version := start_version
                    end_version := end_version
                    start_txn_timestamp := start_txn_timestamp
                    end_txn_timestamp := end_txn_timestamp
                    size_in_bytes := (average_size_in_bytes * txns.length) % U64_MOD }))
  | _, _ => none

/-- The `is_success`-producing match of `get_next_transaction_batch`, paired
with the state after the match and the output batches accumulated so far. -/
def TransactionStream.fetch_step (s : TransactionStream) (ev : FetchEvent) :
    Option (Bool × TransactionStream × List TransactionsPBResponse) :=
  match ev with
  | FetchEvent.response r =>
      match s.process_response r with
      | none => none
      | some (s2, batches) => some (true, s2, batches)
  | FetchEvent.rpcError => some (false, s, [])
  | FetchEvent.streamEnd => some (false, s, [])
  | FetchEvent.itemTimeout => some (false, s, [])

/-- The `is_end` test: a configured ending version exists and
`next_version_to_fetch` has passed it. -/
def TransactionStream.is_end_of_stream (s : TransactionStream) : Bool :=
  match s.transaction_stream_config.request_ending_version with
  | some ending_version => decide (ending_version < s.next_version_to_fetch)
  | none => false

def TransactionStream.get_next_transaction_batch (s : TransactionStream)
    (ev : FetchEvent) : Option (TransactionStream × TransactionStreamOutput) :=
  match s.fetch_step ev with
  | none => none
  | some (is_success, s2, batches) =>
      if s2.is_end_of_stream then
        some (s2, { transactions := batches, should_continue_fetching := false })
      else if is_success then
        some (s2, { transactions := batches, should_continue_fetching := true })
      else
        match (s2.reconnect_to_grpc).2 with
        | none => none
        | some s3 => some (s3, { transactions := batches, should_continue_fetching := true })

/-- The cursor invariant: the next version to fetch is one past the last
delivered version. -/
def cursorInv (s : TransactionStream) : Prop :=
  (s.next_version_to_fetch : Int) = s.last_fetched_version + 1

/-- Version bound under which `u64`/`i64` arithmetic cannot wrap. -/
def EvBounded : FetchEvent → Prop
  | FetchEvent.response r => ∀ t ∈ r.transactions, t.version < 2 ^ 63
  | FetchEvent.rpcError => True
  | FetchEvent.streamEnd => True
  | FetchEvent.itemTimeout => True


/-! ## The default processor durable-write pipeline

From `processor/src/processors/default_processor.rs`.  The typed row models
(out-of-scope pure data mapping) are abstracted to `Row`, a content carrier;
the database is abstracted to the list of table writes a call performs, and
the outcome of atomically executing those writes is an environment function
`env : List DbWrite → Option DbError` (`none` means the transaction
committed).  The per-statement chunking of each collection (`get_chunks`,
in `utils/database.rs`, which always targets the same table for every chunk
of a collection) is collapsed into a single write per collection. -/

structure Row where
  data : String
deriving DecidableEq

inductive Table where
  | transactions
  | user_transactions
  | signatures
  | block_metadata_transactions
  | events
  | write_set_changes
  | move_modules
  | move_resources
  | table_items
  | table_metadata
deriving DecidableEq

structure DbWrite where
  table : Table
  rows : List Row
deriving DecidableEq

abbrev DbError := String

def insert_transactions (items_to_insert : List Row) : List DbWrite :=
  [{ table := Table.transactions, rows := items_to_insert }]

def insert_user_transactions (items_to_insert : List Row) : List DbWrite :=
  [{ table := Table.user_transactions, rows := items_to_insert }]

def insert_signatures (items_to_insert : List Row) : List DbWrite :=
  [{ table := Table.signatures, rows := items_to_insert }]

def insert_block_metadata_transactions (items_to_insert : List Row) : List DbWrite :=
  [{ table := Table.block_metadata_transactions, rows := items_to_insert }]

def insert_events (items_to_insert : List Row) : List DbWrite :=
  [{ table := Table.events, rows := items_to_insert }]

def insert_write_set_changes (items_to_insert : List Row) : List DbWrite :=
  [{ table := Table.write_set_changes, rows := items_to_insert }]

def insert_move_modules (items_to_insert : List Row) : List DbWrite :=
  [{ table := Table.move_modules, rows := items_to_insert }]

def insert_move_resources (items_to_insert : List Row) : List DbWrite :=
  [{ table := Table.move_resources, rows := items_to_insert }]

def insert_table_items (items_to_insert : List Row) : List DbWrite :=
  [{ table := Table.table_items, rows := items_to_insert }]

/-- The writes performed inside the atomic database transaction by
`insert_to_db_impl`.  The source body is a single
`insert_transactions(conn, txns)?`; the nine other insert helpers above are
defined in the source but never invoked from it. -/
def insert_to_db_impl (txns : List Row)
    (user_transactions signatures block_metadata_transactions : List Row)
    (events : List Row) (wscs : List Row)
    (move_modules move_resources table_items table_metadata : List Row) :
    List DbWrite :=
  insert_transactions txns

/-- Modelled from the spec: `clean_data_for_db` lives in
`processor/src/utils/database.rs`, which is not among the provided sources.
The spec describes it as a pass that re-derives each row collection,
defensively truncating or rewriting contents known to trigger store-level
encoding failures, such as strings containing null bytes.  It is modelled
as removing null bytes from every row. -/
def clean_data_for_db (items : List Row) (_should_remove_null_bytes : Bool) :
    List Row :=
  items.map (fun r =>
    { data := String.mk (r.data.data.filter (fun ch => ch ≠ Char.ofNat 0)) })

/-- `insert_to_db`: run the atomic write once; on failure, clean every
collection and run the atomic write exactly once more, surfacing only the
second attempt's outcome. -/
def insert_to_db (env : List DbWrite → Option DbError) (txns : List Row)
    (user_transactions signatures block_metadata_transactions : List Row)
    (events : List Row) (wscs : List Row)
    (move_modules move_resources table_items table_metadata : List Row) :
    Except DbError Unit :=
  match env (insert_to_db_impl txns user_transactions signatures
      block_metadata_transactions events wscs move_modules move_resources
      table_items table_metadata) with
  | none => Except.ok ()
  | some _ =>
      let txns := clean_data_for_db txns true
      let user_transactions := clean_data_for_db user_transactions true
      let signatures := clean_data_for_db signatures true
      let block_metadata_transactions := clean_data_for_db block_metadata_transactions true
      let events := clean_data_for_db events true
      let wscs := clean_data_for_db wscs true
      let move_modules := clean_data_for_db move_modules true
      let move_resources := clean_data_for_db move_resources true
      let table_items := clean_data_for_db table_items true
      let table_metadata := clean_data_for_db table_metadata true
      match env (insert_to_db_impl txns user_transactions signatures
          block_metadata_transactions events wscs move_modules move_resources
          table_items table_metadata) with
      | none => Except.ok ()
      | some e => Except.error e

/-- The ten derived row collections of the default processor. -/
structure DerivedRows where
  txns : List Row
  user_transactions : List Row
  signatures : List Row
  block_metadata_transactions : List Row
  events : List Row
  write_set_changes : List Row
  move_modules : List Row
  move_resources : List Row
  table_items : List Row
  table_metadata : List Row
deriving DecidableEq

/-- `DefaultTransactionProcessor::process_transactions`: derive the row
collections (the pure model-extraction collaborators are the parameter
`extract`, which also covers the grouping and handle-sorting of table
metadata), call `insert_to_db`, and return the version range on success or
the typed error on failure. -/
def process_transactions (env : List DbWrite → Option DbError)
    (extract : List Transaction → DerivedRows)
    (transactions : List Transaction) (start_version end_version : Nat) :
    Except DbError (Nat × Nat) :=
  let d := extract transactions
  match insert_to_db env d.txns d.user_transactions d.signatures
      d.block_metadata_transactions d.events d.write_set_changes
      d.move_modules d.move_resources d.table_items d.table_metadata with
  | Except.ok _ => Except.ok (start_version, end_version)
  | Except.error e => Except.error e

/-! ## Concrete instances used by witnesses and counterexamples -/

/-- A transaction with the given version. -/
def mkTxn (v : Nat) : Transaction :=
  { version := v, timestamp := some { seconds := (v : Int), nanos := 0 }, payload := 0 }

/-- A stream state about to accept versions from 10, with chunk threshold 2. -/
def c5s : TransactionStream :=
  { transaction_stream_config := { starting_version := 10, request_ending_version := none }
    transaction_filter := fun _ => true
    pb_channel_txn_chunk_size := 2
    next_version_to_fetch := 10
    reconnection_retries := 0
    last_fetched_version := 9 }

/-- A raw batch of five transactions spanning versions 10 to 14. -/
def c5r : TransactionsResponse :=
  { transactions := [mkTxn 10, mkTxn 11, mkTxn 12, mkTxn 13, mkTxn 14]
    chain_id := some 7
    encodedLen := 1000 }

def c5s2 : TransactionStream :=
  { c5s with next_version_to_fetch := 15, last_fetched_version := 14 }

def c5out : TransactionStreamOutput :=
  { transactions :=
      [{ transactions := [mkTxn 10, mkTxn 11], chain_id := 7, start_version := 10,
         end_version := 14,
         start_txn_timestamp := some { seconds := 10, nanos := 0 },
         end_txn_timestamp := some { seconds := 14, nanos := 0 },
         size_in_bytes := 400 },
       { transactions := [mkTxn 12, mkTxn 13], chain_id := 7, start_version := 10,
         end_version := 14,
         start_txn_timestamp := some { seconds := 10, nanos := 0 },
         end_txn_timestamp := some { seconds := 14, nanos := 0 },
         size_in_bytes := 400 },
       { transactions := [mkTxn 14], chain_id := 7, start_version := 10,
         end_version := 14,
         start_txn_timestamp := some { seconds := 10, nanos := 0 },
         end_txn_timestamp := some { seconds := 14, nanos := 0 },
         size_in_bytes := 200 }]
    should_continue_fetching := true }

/-- A stream state whose last delivered version is 9. -/
def c2s : TransactionStream :=
  { transaction_stream_config := { starting_version := 10, request_ending_version := none }
    transaction_filter := fun _ => true
    pb_channel_txn_chunk_size := 100
    next_version_to_fetch := 10
    reconnection_retries := 0
    last_fetched_version := 9 }

/-- A raw batch starting at version 12: a gap after version 9. -/
def c2r : TransactionsResponse :=
  { transactions := [mkTxn 12, mkTxn 13], chain_id := some 7, encodedLen := 100 }

/-- The end-to-end scenario state: starting version 1, ending version 5. -/
def c6s : TransactionStream :=
  { transaction_stream_config := { starting_version := 1, request_ending_version := some 5 }
    transaction_filter := fun _ => true
    pb_channel_txn_chunk_size := 100
    next_version_to_fetch := 1
    reconnection_retries := 0
    last_fetched_version := 0 }

def c6r : TransactionsResponse :=
  { transactions := [mkTxn 1, mkTxn 2, mkTxn 3, mkTxn 4, mkTxn 5]
    chain_id := some 7
    encodedLen := 500 }

def c6s2 : TransactionStream :=
  { c6s with next_version_to_fetch := 6, last_fetched_version := 5 }

def c6out : TransactionStreamOutput :=
  { transactions :=
      [{ transactions := [mkTxn 1, mkTxn 2, mkTxn 3, mkTxn 4, mkTxn 5], chain_id := 7,
         start_version := 1, end_version := 5,
         start_txn_timestamp := some { seconds := 1, nanos := 0 },
         end_txn_timestamp := some { seconds := 5, nanos := 0 },
         size_in_bytes := 500 }]
    should_continue_fetching := false }

/-- A stream state that has delivered up to version 500 and whose retry
counter has already reached the bound. -/
def c7s : TransactionStream :=
  { transaction_stream_config := { starting_version := 0, request_ending_version := none }
    transaction_filter := fun _ => true
    pb_channel_txn_chunk_size := 100
    next_version_to_fetch := 501
    reconnection_retries := 5
    last_fetched_version := 500 }

/-- Same cursor as `c7s` but with only three reconnections so far. -/
def c7ws : TransactionStream :=
  { transaction_stream_config := { starting_version := 0, request_ending_version := none }
    transaction_filter := fun _ => true
    pb_channel_txn_chunk_size := 100
    next_version_to_fetch := 501
    reconnection_retries := 3
    last_fetched_version := 500 }

/-- A freshly connected stream state with a zero retry counter. -/
def c8s : TransactionStream :=
  { transaction_stream_config := { starting_version := 0, request_ending_version := none }
    transaction_filter := fun _ => true
    pb_channel_txn_chunk_size := 1
    next_version_to_fetch := 0
    reconnection_retries := 0
    last_fetched_version := -1 }

/-- Chunk threshold 3 over the batch `c5r`-like input, to exercise the
proportional byte-size estimate. -/
def c9s : TransactionStream :=
  { transaction_stream_config := { starting_version := 10, request_ending_version := none }
    transaction_filter := fun _ => true
    pb_channel_txn_chunk_size := 3
    next_version_to_fetch := 10
    reconnection_retries := 0
    last_fetched_version := 9 }

def c9r : TransactionsResponse :=
  { transactions := [mkTxn 10, mkTxn 11, mkTxn 12, mkTxn 13, mkTxn 14]
    chain_id := some 7
    encodedLen := 1000 }

def c9s2 : TransactionStream :=
  { c9s with next_version_to_fetch := 15, last_fetched_version := 14 }

def c9b0 : TransactionsPBResponse :=
  { transactions := [mkTxn 10, mkTxn 11, mkTxn 12], chain_id := 7, start_version := 10,
    end_version := 14,
    start_txn_timestamp := some { seconds := 10, nanos := 0 },
    end_txn_timestamp := some { seconds := 14, nanos := 0 },
    size_in_bytes := 600 }

def c9b1 : TransactionsPBResponse :=
  { transactions := [mkTxn 13, mkTxn 14], chain_id := 7, start_version := 10,
    end_version := 14,
    start_txn_timestamp := some { seconds := 10, nanos := 0 },
    end_txn_timestamp := some { seconds := 14, nanos := 0 },
    size_in_bytes := 400 }

def c9out : TransactionStreamOutput :=
  { transactions := [c9b0, c9b1], should_continue_fetching := true }

def c10cfg : TransactionStreamConfig :=
  { starting_version := 42, request_ending_version := none }

/-- A stream state that was configured to start at version 0 but whose
cursor has advanced to version 501 when the connection is lost. -/
def c1s : TransactionStream :=
  { transaction_stream_config := { starting_version := 0, request_ending_version := none }
    transaction_filter := fun _ => true
    pb_channel_txn_chunk_size := 100
    next_version_to_fetch := 501
    reconnection_retries := 0
    last_fetched_version := 500 }

def c3row : Row := { data := "x" }

/-- An environment in which an atomic write fails exactly when some written
row still contains a null byte. -/
def c4env : List DbWrite → Option DbError := fun ws =>
  if ws.any (fun w => w.rows.any (fun r =>
      r.data.data.any (fun ch => ch = Char.ofNat 0))) then
    some "null byte"
  else
    none

/-- A transactions collection whose single row contains a null byte. -/
def c4txns : List Row := [{ data := String.mk [Char.ofNat 0, Char.ofNat 97] }]


/-! ## Lemma and theorem development -/

theorem i64Wrap_eq_self {i : Int} (h0 : -(2 ^ 63) ≤ i) (h1 : i < 2 ^ 63) :
    i64Wrap i = i := by
  unfold i64Wrap
  have hnn : 0 ≤ i + 2 ^ 63 := by omega
  have hlt : i + 2 ^ 63 < 2 ^ 64 := by omega
  rw [Int.emod_eq_of_lt hnn hlt]
  omega

theorem i64OfU64_eq_self {n : Nat} (h : n < 2 ^ 63) : i64OfU64 n = n := by
  unfold i64OfU64
  apply i64Wrap_eq_self
  · exact le_trans (by norm_num) (Int.natCast_nonneg n)
  · exact_mod_cast h

theorem chunksAux_flatten (n : Nat) (hn : 0 < n) :
    ∀ (fuel : Nat) (l : List Transaction), l.length ≤ fuel →
      (chunksAux n fuel l).flatten = l := by
  intro fuel
  induction fuel with
  | zero =>
      intro l hl
      have : l = [] := List.eq_nil_of_length_eq_zero (Nat.le_zero.mp hl)
      subst this
      rfl
  | succ fuel ih =>
      intro l hl
      cases l with
      | nil => rfl
      | cons x xs =>
          simp only [chunksAux, List.flatten]
          rw [ih ((x :: xs).drop n)]
          · exact List.take_append_drop n (x :: xs)
          · rw [List.length_drop]
            simp only [List.length_cons] at hl ⊢
            omega

theorem listChunks_flatten (n : Nat) (hn : 0 < n) (l : List Transaction) :
    (listChunks n l).flatten = l :=
  chunksAux_flatten n hn l.length l (Nat.le_refl _)

theorem chunksAux_mem_length (n : Nat) :
    ∀ (fuel : Nat) (l : List Transaction) (c : List Transaction),
      c ∈ chunksAux n fuel l → c.length ≤ n := by
  intro fuel
  induction fuel with
  | zero => intro l c hc; simp [chunksAux] at hc
  | succ fuel ih =>
      intro l c hc
      cases l with
      | nil => simp [chunksAux] at hc
      | cons x xs =>
          simp only [chunksAux, List.mem_cons] at hc
          rcases hc with hc | hc
          · subst hc
            exact List.length_take_le n (x :: xs)
          · exact ih _ _ hc

theorem listChunks_mem_length (n : Nat) (l c : List Transaction)
    (hc : c ∈ listChunks n l) : c.length ≤ n :=
  chunksAux_mem_length n l.length l c hc

theorem mem_length_le_flatten_length (L : List (List Transaction)) (c : List Transaction)
    (hc : c ∈ L) : c.length ≤ L.flatten.length := by
  rw [List.length_flatten]
  have : c.length ∈ L.map List.length := List.mem_map_of_mem List.length hc
  exact List.single_le_sum (fun x _ => Nat.zero_le x) _ this

/-! ## Characterization lemmas -/

/-- With a nonempty batch and a present chain id, `process_response` reduces
to the explicit gap-check / chunking expression. -/
theorem process_response_eq (s : TransactionStream) (r : TransactionsResponse)
    (ft lt : Transaction) (cid : Nat)
    (hf : r.transactions.head? = some ft) (hl : r.transactions.getLast? = some lt)
    (hc : r.chain_id = some cid) :
    s.process_response r =
      (if i64Wrap (s.last_fetched_version + 1) ≠ i64OfU64 ft.version then none
       else
         let s3 : TransactionStream :=
           { s with reconnection_retries := 0
                    next_version_to_fetch := (lt.version + 1) % U64_MOD
                    last_fetched_version := i64OfU64 lt.version }
         let filtered := r.transactions.filter s.transaction_filter
         if filtered.length < s.pb_channel_txn_chunk_size then
           some (s3,
             [{ transactions := filtered
                chain_id := cid
                start_version := ft.version
                end_version := lt.version
                start_txn_timestamp := ft.timestamp
                end_txn_timestamp := lt.timestamp
                size_in_bytes := r.encodedLen }])
         else if s.pb_channel_txn_chunk_size = 0 then
           none
         else
           some (s3,
             (listChunks s.pb_channel_txn_chunk_size filtered).map (fun txns =>
               { transactions := txns
                 chain_id := cid
                 start_version := ft.version
                 end_version := lt.version
                 start_txn_timestamp := ft.timestamp
                 end_txn_timestamp := lt.timestamp
                 size_in_bytes :=
                   (r.encodedLen / r.transactions.length * txns.length) % U64_MOD }))) := by
  unfold TransactionStream.process_response
  rw [hf, hl, hc]

/-- A `none` from the response arm propagates to a `none` of the whole call. -/
theorem get_next_response_none (s : TransactionStream) (r : TransactionsResponse)
    (h : s.process_response r = none) :
    s.get_next_transaction_batch (FetchEvent.response r) = none := by
  simp only [TransactionStream.get_next_transaction_batch, TransactionStream.fetch_step, h]

/-- A successful call on a response event is exactly a successful
`process_response`, with the same resulting state and batches. -/
theorem get_next_response_some (s : TransactionStream) (r : TransactionsResponse)
    (s' : TransactionStream) (out : TransactionStreamOutput)
    (h : s.get_next_transaction_batch (FetchEvent.response r) = some (s', out)) :
    s.process_response r = some (s', out.transactions) := by
  simp only [TransactionStream.get_next_transaction_batch,
    TransactionStream.fetch_step] at h
  cases hpr : s.process_response r with
  | none => rw [hpr] at h; exact absurd h (by simp)
  | some v =>
      obtain ⟨s2, batches⟩ := v
      rw [hpr] at h
      simp only at h
      by_cases hend : s2.is_end_of_stream
      · simp only [hend, if_true, Option.some_inj, Prod.mk.injEq] at h
        obtain ⟨hs, hout⟩ := h
        subst hs
        rw [← hout]
      · simp only [hend, Bool.false_eq_true, if_false, if_true, Option.some_inj,
          Prod.mk.injEq] at h
        obtain ⟨hs, hout⟩ := h
        subst hs
        rw [← hout]

/-- The full result of a call on a failure event (`rpcError`, `streamEnd` or
`itemTimeout`): stop with no batches at end of stream, otherwise reconnect,
which panics exactly when the retry counter has reached the bound. -/
theorem get_next_failure_eq (s : TransactionStream) (ev : FetchEvent)
    (hev : ev = FetchEvent.rpcError ∨ ev = FetchEvent.streamEnd ∨
           ev = FetchEvent.itemTimeout) :
    s.get_next_transaction_batch ev =
      (if s.is_end_of_stream then
        some (s, { transactions := [], should_continue_fetching := false })
      else if s.reconnection_retries < RECONNECTION_MAX_RETRIES then
        some ({ s with reconnection_retries := s.reconnection_retries + 1 },
              { transactions := [], should_continue_fetching := true })
      else none) := by
  have stepEq : s.fetch_step ev = some (false, s, []) := by
    rcases hev with h | h | h <;> subst h <;> rfl
  unfold TransactionStream.get_next_transaction_batch
  rw [stepEq]
  by_cases hend : s.is_end_of_stream
  · simp [hend]
  · simp only [hend, if_false, Bool.false_eq_true]
    unfold TransactionStream.reconnect_to_grpc
    by_cases hret : RECONNECTION_MAX_RETRIES ≤ s.reconnection_retries
    · simp [hret, Nat.not_lt.mpr hret]
    · simp [hret, Nat.lt_of_not_le (by exact_mod_cast hret)]

/-- Unfolding of the end-of-stream test. -/
theorem is_end_of_stream_iff (s : TransactionStream) :
    s.is_end_of_stream = true ↔
      ∃ e, s.transaction_stream_config.request_ending_version = some e
           ∧ e < s.next_version_to_fetch := by
  unfold TransactionStream.is_end_of_stream
  cases h : s.transaction_stream_config.request_ending_version with
  | none => simp
  | some e => simp

/-- A successful reconnection only increments the retry counter. -/
theorem reconnect_some_char (s s2 : TransactionStream)
    (h : (s.reconnect_to_grpc).2 = some s2) :
    s.reconnection_retries < RECONNECTION_MAX_RETRIES
    ∧ s2 = { s with reconnection_retries := s.reconnection_retries + 1 } := by
  unfold TransactionStream.reconnect_to_grpc at h
  by_cases hret : RECONNECTION_MAX_RETRIES ≤ s.reconnection_retries
  · rw [if_pos hret] at h; exact absurd h (by simp)
  · rw [if_neg hret] at h
    exact ⟨Nat.lt_of_not_le hret, (Option.some_inj.mp h).symm⟩

/-- Full characterization of a successful `process_response`: the contiguity
check passed, the cursor advanced to the batch end, and the batches are the
single filtered batch or the per-chunk batches according to the threshold. -/
theorem process_response_some_char (s : TransactionStream) (r : TransactionsResponse)
    (ft lt : Transaction) (cid : Nat)
    (hf : r.transactions.head? = some ft) (hl : r.transactions.getLast? = some lt)
    (hc : r.chain_id = some cid)
    (s' : TransactionStream) (batches : List TransactionsPBResponse)
    (h : s.process_response r = some (s', batches)) :
    i64Wrap (s.last_fetched_version + 1) = i64OfU64 ft.version
    ∧ s' = { s with reconnection_retries := 0
                    next_version_to_fetch := (lt.version + 1) % U64_MOD
                    last_fetched_version := i64OfU64 lt.version }
    ∧ (if (r.transactions.filter s.transaction_filter).length <
            s.pb_channel_txn_chunk_size then
         batches =
           [{ transactions := r.transactions.filter s.transaction_filter
              chain_id := cid
              start_version := ft.version
              end_version := lt.version
              start_txn_timestamp := ft.timestamp
              end_txn_timestamp := lt.timestamp
              size_in_bytes := r.encodedLen }]
       else
         0 < s.pb_channel_txn_chunk_size
         ∧ batches =
           (listChunks s.pb_channel_txn_chunk_size
               (r.transactions.filter s.transaction_filter)).map (fun txns =>
             { transactions := txns
               chain_id := cid
               start_version := ft.version
               end_version := lt.version
               start_txn_timestamp := ft.timestamp
               end_txn_timestamp := lt.timestamp
               size_in_bytes :=
                 (r.encodedLen / r.transactions.length * txns.length) % U64_MOD })) := by
  rw [process_response_eq s r ft lt cid hf hl hc] at h
  by_cases hgap : i64Wrap (s.last_fetched_version + 1) ≠ i64OfU64 ft.version
  · rw [if_pos hgap] at h; exact absurd h (by simp)
  · rw [if_neg hgap] at h
    refine ⟨not_not.mp hgap, ?_⟩
    by_cases hsize : (r.transactions.filter s.transaction_filter).length <
        s.pb_channel_txn_chunk_size
    · simp only [hsize, if_true] at h ⊢
      obtain ⟨hs, hb⟩ := Prod.mk.injEq .. ▸ Option.some_inj.mp h
      exact ⟨hs.symm, hb.symm⟩
    · simp only [hsize, if_false] at h ⊢
      by_cases hz : s.pb_channel_txn_chunk_size = 0
      · rw [if_pos hz] at h; exact absurd h (by simp)
      · rw [if_neg hz] at h
        obtain ⟨hs, hb⟩ := Prod.mk.injEq .. ▸ Option.some_inj.mp h
        exact ⟨hs.symm, Nat.pos_of_ne_zero hz, hb.symm⟩

/-- Config, filter, chunk size and retry counter of the state produced by a
successful `process_response`. -/
theorem process_response_some_fields (s : TransactionStream) (r : TransactionsResponse)
    (s2 : TransactionStream) (b : List TransactionsPBResponse)
    (h : s.process_response r = some (s2, b)) :
    s2.transaction_stream_config = s.transaction_stream_config
    ∧ s2.reconnection_retries = 0
    ∧ s2.transaction_filter = s.transaction_filter
    ∧ s2.pb_channel_txn_chunk_size = s.pb_channel_txn_chunk_size := by
  cases hft : r.transactions.head? with
  | none => simp [TransactionStream.process_response, hft] at h
  | some ft =>
      cases hlt : r.transactions.getLast? with
      | none => simp [TransactionStream.process_response, hft, hlt] at h
      | some lt =>
          cases hcid : r.chain_id with
          | none => simp [TransactionStream.process_response, hft, hlt, hcid] at h
          | some cid =>
              obtain ⟨-, hs, -⟩ :=
                process_response_some_char s r ft lt cid hft hlt hcid s2 b h
              rw [hs]
              exact ⟨rfl, rfl, rfl, rfl⟩

/-- A nonempty `head?` forces a `getLast?`. -/
theorem getLast?_of_head? (r : TransactionsResponse) (ft : Transaction)
    (hf : r.transactions.head? = some ft) :
    ∃ lt, r.transactions.getLast? = some lt := by
  cases hl : r.transactions.getLast? with
  | some lt => exact ⟨lt, rfl⟩
  | none =>
      rw [List.getLast?_eq_none_iff] at hl
      rw [hl] at hf
      exact absurd hf (by simp)

/-- A missing chain id panics. -/
theorem process_response_none_of_chain_id_none (s : TransactionStream)
    (r : TransactionsResponse) (ft lt : Transaction)
    (hf : r.transactions.head? = some ft) (hl : r.transactions.getLast? = some lt)
    (hc : r.chain_id = none) :
    s.process_response r = none := by
  unfold TransactionStream.process_response
  rw [hf, hl, hc]

/-- The state inside `fetch_step` keeps the configuration of the caller. -/
theorem fetch_step_some_config (s : TransactionStream) (ev : FetchEvent)
    (suc : Bool) (s2 : TransactionStream) (batches : List TransactionsPBResponse)
    (h : s.fetch_step ev = some (suc, s2, batches)) :
    s2.transaction_stream_config = s.transaction_stream_config := by
  cases ev with
  | response r =>
      simp only [TransactionStream.fetch_step] at h
      cases hpr : s.process_response r with
      | none => rw [hpr] at h; exact absurd h (by simp)
      | some v =>
          obtain ⟨a, b⟩ := v
          rw [hpr] at h
          simp only [Option.some_inj, Prod.mk.injEq] at h
          obtain ⟨-, ha, -⟩ := h
          subst ha
          exact (process_response_some_fields s r _ _ hpr).1
  | rpcError =>
      simp only [TransactionStream.fetch_step, Option.some_inj, Prod.mk.injEq] at h
      obtain ⟨-, ha, -⟩ := h
      rw [← ha]
  | streamEnd =>
      simp only [TransactionStream.fetch_step, Option.some_inj, Prod.mk.injEq] at h
      obtain ⟨-, ha, -⟩ := h
      rw [← ha]
  | itemTimeout =>
      simp only [TransactionStream.fetch_step, Option.some_inj, Prod.mk.injEq] at h
      obtain ⟨-, ha, -⟩ := h
      rw [← ha]

/-! ## Claim theorems -/

/-- C1: the claim states that the reconnection procedure re-establishes the
stream with the current `next_version_to_fetch` as the starting version of
the new upstream request.  The code instead passes
`self.transaction_stream_config.clone()` unchanged to `get_stream`, whose
request always starts at the original configured `starting_version`: at a
state configured to start at 0 whose cursor has advanced to 501, the request
issued by the reconnection connect step starts at 0, not at 501 — even
though the procedure's own log statement reports
`starting_version = self.next_version_to_fetch`. -/
theorem c1_reconnect_requests_original_starting_version :
    c1s.next_version_to_fetch = 501
    ∧ (c1s.reconnect_to_grpc).1
        = [ReconnectStep.sleepMs 100,
           ReconnectStep.connect
             { starting_version := some 0, transactions_count := none }]
    ∧ (getStreamRequest c1s.transaction_stream_config).starting_version = some 0
    ∧ (getStreamRequest c1s.transaction_stream_config).starting_version
        ≠ some c1s.next_version_to_fetch := by
  refine ⟨rfl, rfl, rfl, by decide⟩

/-- C3: the claim states that all ten derived row collections are written
inside the single atomic database transaction.  The code's
`insert_to_db_impl` calls only `insert_transactions`: with every collection
nonempty, the writes executed inside the atomic transaction touch only the
`transactions` table, and in particular the events collection is nonempty
yet its table is never written. -/
theorem c3_insert_to_db_impl_writes_only_transactions :
    ((insert_to_db_impl [c3row] [c3row] [c3row] [c3row] [c3row] [c3row] [c3row]
        [c3row] [c3row] [c3row]).map DbWrite.table = [Table.transactions])
    ∧ Table.events ∉ (insert_to_db_impl [c3row] [c3row] [c3row] [c3row] [c3row]
        [c3row] [c3row] [c3row] [c3row] [c3row]).map DbWrite.table
    ∧ Table.user_transactions ∉ (insert_to_db_impl [c3row] [c3row] [c3row] [c3row]
        [c3row] [c3row] [c3row] [c3row] [c3row] [c3row]).map DbWrite.table
    ∧ ([c3row] : List Row) ≠ [] := by
  refine ⟨rfl, by decide, by decide, by decide⟩

/-- C2: a response batch whose first version differs from
`last_fetched_version + 1` makes `get_next_transaction_batch` panic before
any output batch is produced, and a call that returns at all received a
batch starting exactly at `last_fetched_version + 1` and leaves
`last_fetched_version` at that batch's end version. -/
theorem c2_gap_aborts_before_emitting (s : TransactionStream)
    (r : TransactionsResponse) (ft : Transaction)
    (hf : r.transactions.head? = some ft) :
    (i64Wrap (s.last_fetched_version + 1) ≠ i64OfU64 ft.version →
      s.get_next_transaction_batch (FetchEvent.response r) = none)
    ∧ (∀ s' out, s.get_next_transaction_batch (FetchEvent.response r) = some (s', out) →
        i64Wrap (s.last_fetched_version + 1) = i64OfU64 ft.version
        ∧ (∀ lt, r.transactions.getLast? = some lt →
            s'.last_fetched_version = i64OfU64 lt.version)
        ∧ (ft.version < 2 ^ 63 → -(2 ^ 63) ≤ s.last_fetched_version + 1 →
            s.last_fetched_version + 1 < 2 ^ 63 →
            (ft.version : Int) = s.last_fetched_version + 1)) := by
  obtain ⟨lt, hl⟩ := getLast?_of_head? r ft hf
  constructor
  · intro hgap
    apply get_next_response_none
    cases hcid : r.chain_id with
    | none => exact process_response_none_of_chain_id_none s r ft lt hf hl hcid
    | some cid => rw [process_response_eq s r ft lt cid hf hl hcid, if_pos hgap]
  · intro s' out h
    have hpr := get_next_response_some s r s' out h
    cases hcid : r.chain_id with
    | none =>
        rw [process_response_none_of_chain_id_none s r ft lt hf hl hcid] at hpr
        exact absurd hpr (by simp)
    | some cid =>
        obtain ⟨hgap, hs, -⟩ :=
          process_response_some_char s r ft lt cid hf hl hcid s' _ hpr
        refine ⟨hgap, ?_, ?_⟩
        · intro lt2 hl2
          rw [hl] at hl2
          obtain rfl := Option.some_inj.mp hl2
          rw [hs]
        · intro h1 h2 h3
          rw [i64Wrap_eq_self h2 h3, i64OfU64_eq_self h1] at hgap
          exact hgap.symm

/-- Witness for C2: a last delivered version of 9 followed by a batch
starting at version 12 panics without emitting a batch. -/
theorem c2_gap_aborts_before_emitting_witness :
    c2s.get_next_transaction_batch (FetchEvent.response c2r) = none := by
  have h := c2_gap_aborts_before_emitting c2s c2r (mkTxn 12) rfl
  exact h.1 (by decide)

/-- C5: a returned call on a response batch emits exactly one output batch
holding all filtered transactions when the post-filter count is below the
chunk threshold, and otherwise consecutive order-preserving chunks of at
most the threshold size whose concatenation is the filtered sequence; every
emitted batch carries the original pre-filter span, the original first/last
timestamps, and the chain id of the parent raw batch. -/
theorem c5_chunking_span_preservation (s : TransactionStream)
    (r : TransactionsResponse) (ft lt : Transaction) (cid : Nat)
    (hf : r.transactions.head? = some ft) (hl : r.transactions.getLast? = some lt)
    (hc : r.chain_id = some cid)
    (s' : TransactionStream) (out : TransactionStreamOutput)
    (h : s.get_next_transaction_batch (FetchEvent.response r) = some (s', out)) :
    ((out.transactions.map TransactionsPBResponse.transactions).flatten
        = r.transactions.filter s.transaction_filter)
    ∧ ((r.transactions.filter s.transaction_filter).length <
          s.pb_channel_txn_chunk_size → out.transactions.length = 1)
    ∧ (¬ (r.transactions.filter s.transaction_filter).length <
          s.pb_channel_txn_chunk_size →
        ∀ b ∈ out.transactions, b.transactions.length ≤ s.pb_channel_txn_chunk_size)
    ∧ (∀ b ∈ out.transactions,
        b.start_version = ft.version ∧ b.end_version = lt.version
        ∧ b.start_txn_timestamp = ft.timestamp ∧ b.end_txn_timestamp = lt.timestamp
        ∧ b.chain_id = cid) := by
  have hpr := get_next_response_some s r s' out h
  obtain ⟨-, -, hbr⟩ := process_response_some_char s r ft lt cid hf hl hc s' _ hpr
  by_cases hsize : (r.transactions.filter s.transaction_filter).length <
      s.pb_channel_txn_chunk_size
  · rw [if_pos hsize] at hbr
    refine ⟨?_, fun _ => by rw [hbr]; rfl, fun hns => absurd hsize hns, ?_⟩
    · rw [hbr]; simp
    · intro b hb
      rw [hbr] at hb
      simp only [List.mem_singleton] at hb
      subst hb
      exact ⟨rfl, rfl, rfl, rfl, rfl⟩
  · rw [if_neg hsize] at hbr
    obtain ⟨hpos, hbatches⟩ := hbr
    refine ⟨?_, fun hlt2 => absurd hlt2 hsize, fun _ b hb => ?_, fun b hb => ?_⟩
    · rw [hbatches, List.map_map]
      have : (TransactionsPBResponse.transactions ∘ fun txns =>
          ({ transactions := txns, chain_id := cid, start_version := ft.version,
             end_version := lt.version, start_txn_timestamp := ft.timestamp,
             end_txn_timestamp := lt.timestamp,
             size_in_bytes :=
               (r.encodedLen / r.transactions.length * txns.length) % U64_MOD } :
            TransactionsPBResponse)) = id := rfl
      rw [this, List.map_id]
      exact listChunks_flatten s.pb_channel_txn_chunk_size hpos _
    · rw [hbatches] at hb
      obtain ⟨txns, htxns, hbdef⟩ := List.mem_map.mp hb
      rw [← hbdef]
      exact listChunks_mem_length s.pb_channel_txn_chunk_size _ txns htxns
    · rw [hbatches] at hb
      obtain ⟨txns, htxns, hbdef⟩ := List.mem_map.mp hb
      rw [← hbdef]
      exact ⟨rfl, rfl, rfl, rfl, rfl⟩

/-- Witness for C5: the spec's end-to-end scenario — chunk threshold 2 and a
filtered batch of five transactions spanning versions 10 to 14 yields three
output batches of sizes two, two and one, each reporting span 10 to 14. -/
theorem c5_chunking_span_preservation_witness :
    ((c5out.transactions.map TransactionsPBResponse.transactions).flatten
        = c5r.transactions.filter c5s.transaction_filter)
    ∧ c5out.transactions.length = 3
    ∧ (c5out.transactions.map (fun b => b.transactions.length) = [2, 2, 1])
    ∧ (c5out.transactions.map TransactionsPBResponse.start_version = [10, 10, 10])
    ∧ (c5out.transactions.map TransactionsPBResponse.end_version = [14, 14, 14]) := by
  have h := c5_chunking_span_preservation c5s c5r (mkTxn 10) (mkTxn 14) 7
    rfl rfl rfl c5s2 c5out rfl
  exact ⟨h.1, by decide, by decide, by decide, by decide⟩

/-- C9: when a batch is split into chunks, each chunk's reported byte size is
the raw batch's encoded size integer-divided by the raw (pre-filter)
transaction count, multiplied by the chunk's transaction count. -/
theorem c9_chunk_size_proportional (s : TransactionStream)
    (r : TransactionsResponse) (ft lt : Transaction) (cid : Nat)
    (hf : r.transactions.head? = some ft) (hl : r.transactions.getLast? = some lt)
    (hc : r.chain_id = some cid)
    (s' : TransactionStream) (out : TransactionStreamOutput)
    (h : s.get_next_transaction_batch (FetchEvent.response r) = some (s', out))
    (hsize : ¬ (r.transactions.filter s.transaction_filter).length <
        s.pb_channel_txn_chunk_size)
    (henc : r.encodedLen < 2 ^ 64) :
    ∀ b ∈ out.transactions,
      b.size_in_bytes
        = r.encodedLen / r.transactions.length * b.transactions.length := by
  have hpr := get_next_response_some s r s' out h
  obtain ⟨-, -, hbr⟩ := process_response_some_char s r ft lt cid hf hl hc s' _ hpr
  rw [if_neg hsize] at hbr
  obtain ⟨hpos, hbatches⟩ := hbr
  intro b hb
  rw [hbatches] at hb
  obtain ⟨txns, htxns, hbdef⟩ := List.mem_map.mp hb
  have hlen : txns.length ≤ r.transactions.length := by
    have h1 : txns.length ≤
        (listChunks s.pb_channel_txn_chunk_size
          (r.transactions.filter s.transaction_filter)).flatten.length :=
      mem_length_le_flatten_length _ txns htxns
    rw [listChunks_flatten s.pb_channel_txn_chunk_size hpos] at h1
    exact le_trans h1 (List.length_filter_le _ _)
  have hmul : r.encodedLen / r.transactions.length * txns.length < 2 ^ 64 := by
    calc r.encodedLen / r.transactions.length * txns.length
        ≤ r.encodedLen / r.transactions.length * r.transactions.length :=
          Nat.mul_le_mul_left _ hlen
      _ ≤ r.encodedLen := Nat.div_mul_le_self _ _
      _ < 2 ^ 64 := henc
  rw [← hbdef]
  show (r.encodedLen / r.transactions.length * txns.length) % U64_MOD
      = r.encodedLen / r.transactions.length * txns.length
  exact Nat.mod_eq_of_lt hmul

/-- Witness for C9: 1000 encoded bytes over five raw transactions with chunk
threshold 3 yields per-chunk sizes 600 and 400 (200 per transaction). -/
theorem c9_chunk_size_proportional_witness :
    c9b0.size_in_bytes = c9r.encodedLen / c9r.transactions.length *
      c9b0.transactions.length
    ∧ c9b0.size_in_bytes = 600 ∧ c9b1.size_in_bytes = 400 := by
  have h := c9_chunk_size_proportional c9s c9r (mkTxn 10) (mkTxn 14) 7
    rfl rfl rfl c9s2 c9out rfl (by decide) (by decide)
  exact ⟨h c9b0 (by decide), by decide, by decide⟩

/-- C6: a returned call signals stop exactly when a configured ending
version exists and `next_version_to_fetch` has passed it, regardless of the
outcome of this fetch; in the stop case the batches produced this call are
still returned and the fetch-state is returned untouched (reconnection is
not invoked). -/
theorem c6_stop_signal_iff_past_ending (s : TransactionStream) (ev : FetchEvent)
    (s' : TransactionStream) (out : TransactionStreamOutput)
    (h : s.get_next_transaction_batch ev = some (s', out)) :
    (out.should_continue_fetching = false ↔
      ∃ e, s.transaction_stream_config.request_ending_version = some e
           ∧ e < s'.next_version_to_fetch)
    ∧ (∀ suc s2 batches, s.fetch_step ev = some (suc, s2, batches) →
        s2.is_end_of_stream = true →
        s.get_next_transaction_batch ev
          = some (s2, { transactions := batches, should_continue_fetching := false })) := by
  constructor
  · cases hstep : s.fetch_step ev with
    | none =>
        simp only [TransactionStream.get_next_transaction_batch, hstep] at h
        exact absurd h (by simp)
    | some v =>
        obtain ⟨suc, s2, batches⟩ := v
        have hcfg := fetch_step_some_config s ev suc s2 batches hstep
        simp only [TransactionStream.get_next_transaction_batch, hstep] at h
        by_cases hend : s2.is_end_of_stream
        · rw [if_pos hend] at h
          simp only [Option.some_inj, Prod.mk.injEq] at h
          obtain ⟨hs2, hout⟩ := h
          obtain ⟨e, he1, he2⟩ := (is_end_of_stream_iff s2).mp hend
          have hfalse : out.should_continue_fetching = false := by rw [← hout]
          refine ⟨fun _ => ⟨e, by rw [hcfg] at he1; exact he1, ?_⟩, fun _ => hfalse⟩
          rw [← hs2]
          exact he2
        · rw [if_neg hend] at h
          have hcont : ∀ s3 : TransactionStream,
              s3.transaction_stream_config = s.transaction_stream_config →
              s3.next_version_to_fetch = s2.next_version_to_fetch →
              s3 = s' → out.should_continue_fetching = true →
              (out.should_continue_fetching = false ↔
                ∃ e, s.transaction_stream_config.request_ending_version = some e
                     ∧ e < s'.next_version_to_fetch) := by
            intro s3 hc3 hn3 hs3 htrue
            constructor
            · intro hfalse; rw [htrue] at hfalse; exact absurd hfalse (by simp)
            · rintro ⟨e, he1, he2⟩
              exfalso
              apply hend
              apply (is_end_of_stream_iff s2).mpr
              refine ⟨e, ?_, ?_⟩
              · rw [← hcfg] at he1; exact he1
              · rw [← hs3, hn3] at he2; exact he2
          cases suc with
          | true =>
              simp only [if_true, Option.some_inj, Prod.mk.injEq] at h
              obtain ⟨hs2, hout⟩ := h
              exact hcont s2 hcfg rfl hs2 (by rw [← hout])
          | false =>
              simp only [Bool.false_eq_true, if_false] at h
              cases hrec : (s2.reconnect_to_grpc).2 with
              | none => rw [hrec] at h; exact absurd h (by simp)
              | some s3 =>
                  rw [hrec] at h
                  simp only [Option.some_inj, Prod.mk.injEq] at h
                  obtain ⟨hs3, hout⟩ := h
                  obtain ⟨-, hdef⟩ := reconnect_some_char s2 s3 hrec
                  refine hcont s3 ?_ ?_ hs3 (by rw [← hout])
                  · rw [hdef, hcfg]
                  · rw [hdef]
  · intro suc s2 batches hstep hend
    simp only [TransactionStream.get_next_transaction_batch, hstep, hend, if_true]

/-- Witness for C6: the spec's end-to-end scenario — starting version 1,
ending version 5, one upstream batch spanning 1 to 5 — yields exactly one
output batch and the stop signal. -/
theorem c6_stop_signal_iff_past_ending_witness :
    c6out.should_continue_fetching = false ∧ c6out.transactions.length = 1 := by
  have h := (c6_stop_signal_iff_past_ending c6s (FetchEvent.response c6r)
    c6s2 c6out rfl).1
  exact ⟨h.mpr ⟨5, rfl, by decide⟩, by decide⟩

/-- Counterexample for C7: the claim says every call with an unsuccessful
fetch returns normally without aborting the process.  At a state whose
retry counter has already reached the bound (five consecutive reconnections
without a successful batch) and whose ending version is not passed, an
unsuccessful fetch invokes the reconnection procedure, which panics. -/
theorem c7_abort_on_sixth_consecutive_failure :
    c7s.get_next_transaction_batch FetchEvent.rpcError = none := by rfl

/-- C7 (amended): a call whose fetch is not successful emits zero output
batches and leaves the cursor untouched; provided the ending version has
been passed or fewer than five consecutive reconnections have occurred, it
returns normally with only the continue/stop signal and no error value. -/
theorem c7_transient_fault_absorbed (s : TransactionStream) (ev : FetchEvent)
    (hev : ev = FetchEvent.rpcError ∨ ev = FetchEvent.streamEnd ∨
           ev = FetchEvent.itemTimeout)
    (hnoabort : s.is_end_of_stream = true ∨
           s.reconnection_retries < RECONNECTION_MAX_RETRIES) :
    s.get_next_transaction_batch ev =
      (if s.is_end_of_stream then
        some (s, { transactions := [], should_continue_fetching := false })
      else
        some ({ s with reconnection_retries := s.reconnection_retries + 1 },
              { transactions := [], should_continue_fetching := true }))
    ∧ (∀ s1 out1, s.get_next_transaction_batch ev = some (s1, out1) →
        out1.transactions = []
        ∧ s1.next_version_to_fetch = s.next_version_to_fetch
        ∧ s1.last_fetched_version = s.last_fetched_version) := by
  rw [get_next_failure_eq s ev hev]
  by_cases hend : s.is_end_of_stream
  · simp only [hend, if_true]
    refine ⟨by trivial, ?_⟩
    intro s1 out1 h1
    simp only [Option.some_inj, Prod.mk.injEq] at h1
    obtain ⟨hs1, hout1⟩ := h1
    rw [← hs1, ← hout1]
    exact ⟨rfl, rfl, rfl⟩
  · have hret : s.reconnection_retries < RECONNECTION_MAX_RETRIES := by
      rcases hnoabort with hno | hno
      · exact absurd hno hend
      · exact hno
    simp only [if_neg hend, if_pos hret]
    refine ⟨by trivial, ?_⟩
    intro s1 out1 h1
    simp only [Option.some_inj, Prod.mk.injEq] at h1
    obtain ⟨hs1, hout1⟩ := h1
    rw [← hs1, ← hout1]
    exact ⟨rfl, rfl, rfl⟩

/-- Witness for C7 (amended): with three reconnections so far, a timeout is
absorbed, emitting no batches and only bumping the retry counter. -/
theorem c7_transient_fault_absorbed_witness :
    c7ws.get_next_transaction_batch FetchEvent.itemTimeout
      = some ({ c7ws with reconnection_retries := 4 },
              { transactions := [], should_continue_fetching := true }) := by
  have h := (c7_transient_fault_absorbed c7ws FetchEvent.itemTimeout
    (Or.inr (Or.inr rfl)) (Or.inr (by decide))).1
  exact h.trans rfl

/-- C8: the retry counter resets on every successfully received batch; each
reconnection invocation first sleeps the fixed 100ms delay, panics if the
counter has already reached the bound of five, and otherwise increments the
counter by exactly one before re-running the connector; hence at most five
consecutive reconnections can occur without an intervening successful
batch. -/
theorem c8_reconnection_bound :
    (∀ (s : TransactionStream) (r : TransactionsResponse) s' out,
        s.get_next_transaction_batch (FetchEvent.response r) = some (s', out) →
        s'.reconnection_retries = 0)
    ∧ (∀ s : TransactionStream,
        (s.reconnect_to_grpc).1.head? = some (ReconnectStep.sleepMs 100)
        ∧ (RECONNECTION_MAX_RETRIES ≤ s.reconnection_retries →
            (s.reconnect_to_grpc).2 = none)
        ∧ (s.reconnection_retries < RECONNECTION_MAX_RETRIES →
            (s.reconnect_to_grpc).2
              = some { s with reconnection_retries := s.reconnection_retries + 1 }
            ∧ (s.reconnect_to_grpc).1
              = [ReconnectStep.sleepMs 100,
                 ReconnectStep.connect (getStreamRequest s.transaction_stream_config)]))
    ∧ (∀ s : TransactionStream, s.reconnection_retries = 0 →
        (iterReconnect RECONNECTION_MAX_RETRIES s).isSome = true
        ∧ iterReconnect (RECONNECTION_MAX_RETRIES + 1) s = none) := by
  refine ⟨?_, ?_, ?_⟩
  · intro s r s' out h
    have hpr := get_next_response_some s r s' out h
    exact (process_response_some_fields s r s' _ hpr).2.1
  · intro s
    refine ⟨?_, ?_, ?_⟩
    · by_cases hret : RECONNECTION_MAX_RETRIES ≤ s.reconnection_retries <;>
        simp [TransactionStream.reconnect_to_grpc, hret]
    · intro hge
      simp [TransactionStream.reconnect_to_grpc, if_pos hge]
    · intro hlt2
      have hnot := Nat.not_le.mpr hlt2
      constructor <;> simp [TransactionStream.reconnect_to_grpc, if_neg hnot]
  · intro s hs
    constructor <;>
      simp [iterReconnect, TransactionStream.reconnect_to_grpc,
        RECONNECTION_MAX_RETRIES, hs]

/-- Witness for C8: from a zero retry counter, five consecutive
reconnections succeed and a sixth panics. -/
theorem c8_reconnection_bound_witness :
    (iterReconnect RECONNECTION_MAX_RETRIES c8s).isSome = true
    ∧ iterReconnect (RECONNECTION_MAX_RETRIES + 1) c8s = none :=
  (c8_reconnection_bound).2.2 c8s rfl

/-- Cursor fields of the state produced by a successful response call. -/
theorem get_next_response_cursor (s : TransactionStream) (r : TransactionsResponse)
    (s' : TransactionStream) (out : TransactionStreamOutput) (lt : Transaction)
    (h : s.get_next_transaction_batch (FetchEvent.response r) = some (s', out))
    (hl : r.transactions.getLast? = some lt) :
    s'.next_version_to_fetch = (lt.version + 1) % U64_MOD
    ∧ s'.last_fetched_version = i64OfU64 lt.version := by
  have hpr := get_next_response_some s r s' out h
  cases hft : r.transactions.head? with
  | none =>
      rw [List.head?_eq_none_iff] at hft
      rw [hft] at hl
      exact absurd hl (by simp)
  | some ft =>
      cases hcid : r.chain_id with
      | none =>
          rw [process_response_none_of_chain_id_none s r ft lt hft hl hcid] at hpr
          exact absurd hpr (by simp)
      | some cid =>
          obtain ⟨-, hs, -⟩ :=
            process_response_some_char s r ft lt cid hft hl hcid s' _ hpr
          rw [hs]
          exact ⟨rfl, rfl⟩

/-- Cursor fields are untouched by a returning call on a failure event. -/
theorem get_next_failure_cursor (s : TransactionStream) (ev : FetchEvent)
    (s' : TransactionStream) (out : TransactionStreamOutput)
    (hev : ev = FetchEvent.rpcError ∨ ev = FetchEvent.streamEnd ∨
           ev = FetchEvent.itemTimeout)
    (h : s.get_next_transaction_batch ev = some (s', out)) :
    s'.next_version_to_fetch = s.next_version_to_fetch
    ∧ s'.last_fetched_version = s.last_fetched_version := by
  rw [get_next_failure_eq s ev hev] at h
  by_cases hend : s.is_end_of_stream
  · simp only [hend, if_true, Option.some_inj, Prod.mk.injEq] at h
    obtain ⟨hs1, -⟩ := h
    rw [← hs1]
    exact ⟨rfl, rfl⟩
  · by_cases hret : s.reconnection_retries < RECONNECTION_MAX_RETRIES
    · simp only [if_neg hend, if_pos hret, Option.some_inj, Prod.mk.injEq] at h
      obtain ⟨hs1, -⟩ := h
      rw [← hs1]
      exact ⟨rfl, rfl⟩
    · simp only [if_neg hend, if_neg hret] at h
      exact absurd h (by simp)

/-- C10: construction initializes the cursor to
`(starting_version, starting_version - 1)`; a successful fetch sets it to
`(end_version + 1, end_version)`; unsuccessful fetches and reconnections
change neither field; hence `next_version_to_fetch = last_fetched_version + 1`
holds after construction and after every returning call, and the first batch
accepted after construction starts exactly at the configured starting
version (a batch starting elsewhere panics). -/
theorem c10_cursor_invariant :
    (∀ (c : TransactionStreamConfig) (f : Transaction → Bool) (n : Nat),
        (TransactionStream.new c f n).next_version_to_fetch = c.starting_version
        ∧ (TransactionStream.new c f n).last_fetched_version
            = i64Wrap (i64OfU64 c.starting_version - 1)
        ∧ (c.starting_version < 2 ^ 63 → cursorInv (TransactionStream.new c f n)))
    ∧ (∀ (s : TransactionStream) (r : TransactionsResponse) s' out lt,
        s.get_next_transaction_batch (FetchEvent.response r) = some (s', out) →
        r.transactions.getLast? = some lt →
        s'.next_version_to_fetch = (lt.version + 1) % U64_MOD
        ∧ s'.last_fetched_version = i64OfU64 lt.version)
    ∧ (∀ (s : TransactionStream) (ev : FetchEvent) s' out,
        (ev = FetchEvent.rpcError ∨ ev = FetchEvent.streamEnd ∨
         ev = FetchEvent.itemTimeout) →
        s.get_next_transaction_batch ev = some (s', out) →
        s'.next_version_to_fetch = s.next_version_to_fetch
        ∧ s'.last_fetched_version = s.last_fetched_version)
    ∧ (∀ (s : TransactionStream) (ev : FetchEvent) s' out,
        EvBounded ev → cursorInv s →
        s.get_next_transaction_batch ev = some (s', out) → cursorInv s')
    ∧ (∀ (c : TransactionStreamConfig) (f : Transaction → Bool) (n : Nat)
          (r : TransactionsResponse) s' out (ft : Transaction),
        c.starting_version < 2 ^ 63 → ft.version < 2 ^ 63 →
        (TransactionStream.new c f n).get_next_transaction_batch
            (FetchEvent.response r) = some (s', out) →
        r.transactions.head? = some ft →
        ft.version = c.starting_version) := by
  refine ⟨?_, ?_, ?_, ?_, ?_⟩
  · intro c f n
    refine ⟨rfl, rfl, ?_⟩
    intro hsv
    have h1 : (c.starting_version : Int) < 2 ^ 63 := by exact_mod_cast hsv
    have h0 : (0 : Int) ≤ (c.starting_version : Int) := Int.natCast_nonneg _
    show (c.starting_version : Int) = i64Wrap (i64OfU64 c.starting_version - 1) + 1
    rw [i64OfU64_eq_self hsv, i64Wrap_eq_self (by omega) (by omega)]
    omega
  · intro s r s' out lt h hl
    exact get_next_response_cursor s r s' out lt h hl
  · intro s ev s' out hev h
    exact get_next_failure_cursor s ev s' out hev h
  · intro s ev s' out hb hinv h
    cases ev with
    | response r =>
        cases hlt : r.transactions.getLast? with
        | none =>
            have hpr := get_next_response_some s r s' out h
            rw [List.getLast?_eq_none_iff] at hlt
            rw [TransactionStream.process_response, hlt] at hpr
            exact absurd hpr (by simp)
        | some lt =>
            obtain ⟨hnext, hlast⟩ := get_next_response_cursor s r s' out lt h hlt
            have hmem : lt ∈ r.transactions := by
              obtain ⟨hne, heq⟩ :=
                List.mem_getLast?_eq_getLast (Option.mem_def.mpr hlt)
              rw [heq]
              exact List.getLast_mem hne
            have hvb : lt.version < 2 ^ 63 := hb lt hmem
            show (s'.next_version_to_fetch : Int) = s'.last_fetched_version + 1
            rw [hnext, hlast, i64OfU64_eq_self hvb]
            rw [Nat.mod_eq_of_lt (show lt.version + 1 < U64_MOD by
              unfold U64_MOD; omega)]
            push_cast
            ring
    | rpcError =>
        obtain ⟨hnext, hlast⟩ :=
          get_next_failure_cursor s _ s' out (Or.inl rfl) h
        show (s'.next_version_to_fetch : Int) = s'.last_fetched_version + 1
        rw [hnext, hlast]
        exact hinv
    | streamEnd =>
        obtain ⟨hnext, hlast⟩ :=
          get_next_failure_cursor s _ s' out (Or.inr (Or.inl rfl)) h
        show (s'.next_version_to_fetch : Int) = s'.last_fetched_version + 1
        rw [hnext, hlast]
        exact hinv
    | itemTimeout =>
        obtain ⟨hnext, hlast⟩ :=
          get_next_failure_cursor s _ s' out (Or.inr (Or.inr rfl)) h
        show (s'.next_version_to_fetch : Int) = s'.last_fetched_version + 1
        rw [hnext, hlast]
        exact hinv
  · intro c f n r s' out ft hsv hftv h hf
    have hpr := get_next_response_some _ r s' out h
    obtain ⟨lt, hl⟩ := getLast?_of_head? r ft hf
    cases hcid : r.chain_id with
    | none =>
        rw [process_response_none_of_chain_id_none _ r ft lt hf hl hcid] at hpr
        exact absurd hpr (by simp)
    | some cid =>
        obtain ⟨hgap, -, -⟩ :=
          process_response_some_char _ r ft lt cid hf hl hcid s' _ hpr
        have h1 : (c.starting_version : Int) < 2 ^ 63 := by exact_mod_cast hsv
        have h0 : (0 : Int) ≤ (c.starting_version : Int) := Int.natCast_nonneg _
        have hlast : (TransactionStream.new c f n).last_fetched_version
            = (c.starting_version : Int) - 1 := by
          show i64Wrap (i64OfU64 c.starting_version - 1) = _
          rw [i64OfU64_eq_self hsv, i64Wrap_eq_self (by omega) (by omega)]
        rw [hlast] at hgap
        have hsimp : (c.starting_version : Int) - 1 + 1 = (c.starting_version : Int) := by
          ring
        rw [hsimp, i64Wrap_eq_self (by omega) (by omega), i64OfU64_eq_self hftv] at hgap
        exact_mod_cast hgap.symm

/-- Witness for C10: a stream constructed to start at version 42 satisfies
the cursor invariant. -/
theorem c10_cursor_invariant_witness :
    cursorInv (TransactionStream.new c10cfg (fun _ => true) 3) := by
  have h := (c10_cursor_invariant).1 c10cfg (fun _ => true) 3
  exact h.2.2 (by decide)

/-- C4: the first atomic write attempt's error is never surfaced; on a
first failure every collection is re-derived through the cleaning pass and
the atomic write is retried exactly once; the typed error is returned if and
only if this second attempt also fails (and it is that attempt's error);
the caller `process_transactions` returns the accepted version range exactly
on success and forwards the typed error otherwise. -/
theorem c4_insert_retry_contract (env : List DbWrite → Option DbError)
    (txns uts sigs bmts evs wscs mms mrs tis tms : List Row) :
    (insert_to_db env txns uts sigs bmts evs wscs mms mrs tis tms = Except.ok ()
      ↔ env (insert_to_db_impl txns uts sigs bmts evs wscs mms mrs tis tms) = none
        ∨ env (insert_to_db_impl (clean_data_for_db txns true)
            (clean_data_for_db uts true) (clean_data_for_db sigs true)
            (clean_data_for_db bmts true) (clean_data_for_db evs true)
            (clean_data_for_db wscs true) (clean_data_for_db mms true)
            (clean_data_for_db mrs true) (clean_data_for_db tis true)
            (clean_data_for_db tms true)) = none)
    ∧ (∀ e, insert_to_db env txns uts sigs bmts evs wscs mms mrs tis tms
          = Except.error e
        ↔ env (insert_to_db_impl txns uts sigs bmts evs wscs mms mrs tis tms) ≠ none
          ∧ env (insert_to_db_impl (clean_data_for_db txns true)
              (clean_data_for_db uts true) (clean_data_for_db sigs true)
              (clean_data_for_db bmts true) (clean_data_for_db evs true)
              (clean_data_for_db wscs true) (clean_data_for_db mms true)
              (clean_data_for_db mrs true) (clean_data_for_db tis true)
              (clean_data_for_db tms true)) = some e)
    ∧ (∀ (env2 : List DbWrite → Option DbError)
          (extract : List Transaction → DerivedRows)
          (txs : List Transaction) (sv evv : Nat),
        (∀ p, process_transactions env2 extract txs sv evv = Except.ok p →
            p = (sv, evv))
        ∧ (∀ e, process_transactions env2 extract txs sv evv = Except.error e ↔
            insert_to_db env2 (extract txs).txns (extract txs).user_transactions
              (extract txs).signatures (extract txs).block_metadata_transactions
              (extract txs).events (extract txs).write_set_changes
              (extract txs).move_modules (extract txs).move_resources
              (extract txs).table_items (extract txs).table_metadata
              = Except.error e)) := by
  refine ⟨?_, ?_, ?_⟩
  · unfold insert_to_db
    cases hfirst : env (insert_to_db_impl txns uts sigs bmts evs wscs mms mrs
        tis tms) with
    | none => simp
    | some err =>
        simp only
        cases hsecond : env (insert_to_db_impl (clean_data_for_db txns true)
            (clean_data_for_db uts true) (clean_data_for_db sigs true)
            (clean_data_for_db bmts true) (clean_data_for_db evs true)
            (clean_data_for_db wscs true) (clean_data_for_db mms true)
            (clean_data_for_db mrs true) (clean_data_for_db tis true)
            (clean_data_for_db tms true)) with
        | none => simp
        | some e2 => simp
  · intro e
    unfold insert_to_db
    cases hfirst : env (insert_to_db_impl txns uts sigs bmts evs wscs mms mrs
        tis tms) with
    | none => simp
    | some err =>
        simp only
        cases hsecond : env (insert_to_db_impl (clean_data_for_db txns true)
            (clean_data_for_db uts true) (clean_data_for_db sigs true)
            (clean_data_for_db bmts true) (clean_data_for_db evs true)
            (clean_data_for_db wscs true) (clean_data_for_db mms true)
            (clean_data_for_db mrs true) (clean_data_for_db tis true)
            (clean_data_for_db tms true)) with
        | none => simp
        | some e2 => simp [eq_comm]
  · intro env2 extract txs sv evv
    constructor
    · intro p hp
      simp only [process_transactions] at hp
      cases hins : insert_to_db env2 (extract txs).txns
          (extract txs).user_transactions (extract txs).signatures
          (extract txs).block_metadata_transactions (extract txs).events
          (extract txs).write_set_changes (extract txs).move_modules
          (extract txs).move_resources (extract txs).table_items
          (extract txs).table_metadata with
      | ok u =>
          rw [hins] at hp
          simp only [Except.ok.injEq] at hp
          exact hp.symm
      | error e2 => rw [hins] at hp; exact absurd hp (by simp)
    · intro e
      simp only [process_transactions]
      cases hins : insert_to_db env2 (extract txs).txns
          (extract txs).user_transactions (extract txs).signatures
          (extract txs).block_metadata_transactions (extract txs).events
          (extract txs).write_set_changes (extract txs).move_modules
          (extract txs).move_resources (extract txs).table_items
          (extract txs).table_metadata with
      | ok u => simp
      | error e2 => simp

/-- Witness for C4: a row with a null byte fails the first attempt in an
environment that rejects null bytes, and the cleaned retry commits. -/
theorem c4_insert_retry_contract_witness :
    insert_to_db c4env c4txns [] [] [] [] [] [] [] [] [] = Except.ok () := by
  have h := (c4_insert_retry_contract c4env c4txns [] [] [] [] [] [] [] [] []).1
  exact h.mpr (Or.inr (by decide))

end AptosIndexer
